import Mathlib

/-!
Verification development for the MIME envelope and attachment subsystem of a
Gmail tool client. The definitions below are shallow embeddings of the
TypeScript functions in src/gmail-client.ts and src/index.ts: JavaScript
strings become Lean String, byte buffers become List Nat (each element a byte
value), optional JS fields become Option, thrown exceptions become Except, and
JS truthiness tests on strings are modelled explicitly (a string is truthy iff
it is nonempty; an optional is truthy iff it is present and nonempty).
Platform primitives used by the code (Buffer base64 and base64url codecs,
UTF-8 conversion) are modelled faithfully as executable Lean functions.
-/

namespace Gmail

/-! ## UTF-8 encoding and decoding (model of Buffer string conversion) -/

/-- UTF-8 encoding of one Unicode scalar value, as the standard 1 to 4 byte
sequence. Models what Buffer.from(string) does per character. -/
def utf8EncodeChar (c : Char) : List Nat :=
  let n := c.toNat
  if n < 128 then [n]
  else if n < 2048 then [192 + n / 64, 128 + n % 64]
  else if n < 65536 then [224 + n / 4096, 128 + (n / 64) % 64, 128 + n % 64]
  else [240 + n / 262144, 128 + (n / 4096) % 64, 128 + (n / 64) % 64, 128 + n % 64]

/-- UTF-8 encoding of a whole string to a byte list. -/
def utf8Encode (s : String) : List Nat :=
  s.data.flatMap utf8EncodeChar

/-- Replacement character U+FFFD emitted for invalid UTF-8 input. -/
def replChar : Char := Char.ofNat 65533

/-- True for a UTF-8 continuation byte (10xxxxxx). -/
def isCont (b : Nat) : Bool := 128 ≤ b && b < 192

/-- UTF-8 decoding of a byte list to characters, validating per RFC 3629;
invalid bytes decode to the replacement character (model of
Buffer.toString with utf-8; on a malformed sequence this model consumes the
lead byte and emits one replacement character). The fuel argument makes the
recursion structural; every step consumes at least one byte, so fuel equal to
the list length always suffices. -/
def utf8DecodeFuel : Nat → List Nat → List Char
  | 0, _ => []
  | _, [] => []
  | fuel + 1, b :: rest =>
    if b < 128 then Char.ofNat b :: utf8DecodeFuel fuel rest
    else if 194 ≤ b && b ≤ 223 then
      match rest with
      | b2 :: rest2 =>
        if isCont b2 then Char.ofNat ((b - 192) * 64 + (b2 - 128)) :: utf8DecodeFuel fuel rest2
        else replChar :: utf8DecodeFuel fuel rest
      | [] => [replChar]
    else if 224 ≤ b && b ≤ 239 then
      match rest with
      | b2 :: b3 :: rest3 =>
        if (if b = 224 then 160 ≤ b2 && b2 ≤ 191
            else if b = 237 then 128 ≤ b2 && b2 ≤ 159
            else isCont b2) && isCont b3 then
          Char.ofNat ((b - 224) * 4096 + (b2 - 128) * 64 + (b3 - 128)) :: utf8DecodeFuel fuel rest3
        else replChar :: utf8DecodeFuel fuel rest
      | _ => [replChar]
    else if 240 ≤ b && b ≤ 244 then
      match rest with
      | b2 :: b3 :: b4 :: rest4 =>
        if (if b = 240 then 144 ≤ b2 && b2 ≤ 191
            else if b = 244 then 128 ≤ b2 && b2 ≤ 143
            else isCont b2) && isCont b3 && isCont b4 then
          Char.ofNat ((b - 240) * 262144 + (b2 - 128) * 4096 + (b3 - 128) * 64 + (b4 - 128))
            :: utf8DecodeFuel fuel rest4
        else replChar :: utf8DecodeFuel fuel rest
      | _ => [replChar]
    else replChar :: utf8DecodeFuel fuel rest

/-- UTF-8 decoding of a byte list. -/
def utf8DecodeList (l : List Nat) : List Char := utf8DecodeFuel l.length l

/-! ## Base64 codecs (model of Buffer base64 and base64url conversions) -/

/-- Standard base64 alphabet character for a sextet value. -/
def b64CharStd (n : Nat) : Char :=
  if n < 26 then Char.ofNat (65 + n)
  else if n < 52 then Char.ofNat (97 + (n - 26))
  else if n < 62 then Char.ofNat (48 + (n - 52))
  else if n = 62 then '+' else '/'

/-- URL-safe base64 alphabet character for a sextet value. -/
def b64CharUrl (n : Nat) : Char :=
  if n < 26 then Char.ofNat (65 + n)
  else if n < 52 then Char.ofNat (97 + (n - 26))
  else if n < 62 then Char.ofNat (48 + (n - 52))
  else if n = 62 then '-' else '_'

/-- Core base64 encoder over bytes, parameterised by alphabet and padding. -/
def b64EncodeCore (f : Nat → Char) (pad : Bool) : List Nat → List Char
  | b1 :: b2 :: b3 :: rest =>
    f (b1 / 4) :: f ((b1 % 4) * 16 + b2 / 16) :: f ((b2 % 16) * 4 + b3 / 64) :: f (b3 % 64)
      :: b64EncodeCore f pad rest
  | [b1, b2] =>
    [f (b1 / 4), f ((b1 % 4) * 16 + b2 / 16), f ((b2 % 16) * 4)] ++ (if pad then ['='] else [])
  | [b1] =>
    [f (b1 / 4), f ((b1 % 4) * 16)] ++ (if pad then ['=', '='] else [])
  | [] => []

/-- Standard base64 with padding: model of Buffer.toString with base64,
used for attachment payloads. -/
def base64Encode (bytes : List Nat) : String :=
  String.mk (b64EncodeCore b64CharStd true bytes)

/-- URL-safe base64 without padding: model of Buffer.toString with base64url,
used for the final raw message. -/
def base64UrlEncode (bytes : List Nat) : String :=
  String.mk (b64EncodeCore b64CharUrl false bytes)

/-- Model of Buffer.from(string).toString(base64url): UTF-8 encode then
base64url encode. -/
def base64UrlOfString (s : String) : String :=
  base64UrlEncode (utf8Encode s)

/-- Sextet value of a base64 character; accepts both the standard and the
URL-safe alphabet, none for any other character (model of the forgiving
Buffer base64url decoder, which skips characters outside the alphabet). -/
def b64Val (c : Char) : Option Nat :=
  if 'A' ≤ c && c ≤ 'Z' then some (c.toNat - 65)
  else if 'a' ≤ c && c ≤ 'z' then some (c.toNat - 71)
  else if '0' ≤ c && c ≤ '9' then some (c.toNat + 4)
  else if c = '+' || c = '-' then some 62
  else if c = '/' || c = '_' then some 63
  else none

/-- Reassemble bytes from a list of sextets (4 sextets give 3 bytes; a
2-sextet tail gives 1 byte, a 3-sextet tail gives 2, a lone sextet none). -/
def b64Bytes : List Nat → List Nat
  | a :: b :: c :: d :: rest =>
    (a * 4 + b / 16) :: ((b % 16) * 16 + c / 4) :: ((c % 4) * 64 + d) :: b64Bytes rest
  | [a, b] => [a * 4 + b / 16]
  | [a, b, c] => [a * 4 + b / 16, (b % 16) * 16 + c / 4]
  | _ => []

/-- Model of Buffer.from(data, base64url).toString(utf-8): decode base64url
text to bytes, then decode those bytes as UTF-8. -/
def decodeBase64UrlUtf8 (s : String) : String :=
  String.mk (utf8DecodeList (b64Bytes (s.data.filterMap b64Val)))

/-! ## JS string helpers -/

/-- JS logical-or on strings: the left operand unless it is falsy (empty). -/
def jsOrStr (a b : String) : String := if a = "" then b else a

/-- JS logical-or where the left operand is an optional string: an absent or
empty string falls through to the right operand. -/
def jsOrOptStr (a : Option String) (b : String) : String :=
  match a with
  | some s => jsOrStr s b
  | none => b

/-- JS truthiness of an optional string: present and nonempty. -/
def jsTruthyStr (o : Option String) : Bool :=
  match o with
  | some s => s ≠ ""
  | none => false

/-- Model of JS String.toLowerCase (ASCII case mapping suffices for the
inputs the source compares: header names and filename extensions). -/
def jsToLower (s : String) : String := String.mk (s.data.map Char.toLower)

/-- Model of JS String.startsWith: the leading characters equal the given
ones. -/
def jsStartsWith (s p : String) : Bool := s.data.take p.data.length == p.data

/-- Model of JS String.endsWith: the trailing characters equal the given
ones. -/
def jsEndsWith (s p : String) : Bool := s.data.drop (s.data.length - p.data.length) == p.data

/-- Model of JS String.split with a one-character separator. -/
def splitOnChar (c : Char) : List Char → List (List Char)
  | [] => [[]]
  | x :: t =>
    match splitOnChar c t with
    | [] => [[]]
    | l :: ls => if x = c then [] :: l :: ls else (x :: l) :: ls

/-- JS Array.join with separator, over a list of strings (source: the
headers.join call). -/
def joinCRLF : List String → String
  | [] => ""
  | [h] => h
  | h :: t => h ++ "\r\n" ++ joinCRLF t

/-- JS Array.join with empty separator (source: the parts.join call). -/
def sjoin : List String → String
  | [] => ""
  | s :: t => s ++ sjoin t

/-! ## MIME envelope builder (source: buildRawEmail, buildRawEmailWithAttachments,
sanitizeHeaderValue in src/gmail-client.ts lines 473-538 and 736-738) -/

/-- One resolved attachment payload, as consumed by the builder. -/
structure AttachmentPayload where
  filename : String
  mimeType : String
  base64Data : String
deriving DecidableEq

/-- Source sanitizeHeaderValue: value.replace of every carriage return, line
feed or double quote character by an underscore (a global regex over a
character class is a character-wise map). -/
def sanitizeHeaderValue (v : String) : String :=
  String.mk (v.data.map (fun c => if c = '\r' || c = '\n' || c = '"' then '_' else c))

/-- True for characters matched by the JS regex dot (everything except the
line terminators LF, CR, U+2028, U+2029). -/
def jsDot (c : Char) : Bool :=
  c ≠ '\n' && c ≠ '\r' && c ≠ Char.ofNat 8232 && c ≠ Char.ofNat 8233

/-- Model of the JS global replace of (.{76}) by the match followed by CRLF:
scan left to right; whenever the next 76 characters are all non-terminators,
emit them followed by CRLF and continue after them; otherwise emit one
character and retry at the next position. -/
def wrapAux (s : List Char) : List Char :=
  match s with
  | [] => []
  | c :: rest =>
    if 76 ≤ (c :: rest).length && ((c :: rest).take 76).all jsDot then
      (c :: rest).take 76 ++ '\r' :: '\n' :: wrapAux ((c :: rest).drop 76)
    else
      c :: wrapAux rest
termination_by s.length
decreasing_by all_goals simp [List.length_drop, List.length_cons] <;> omega

/-- Source line 524: attachment.base64Data.replace hard-wrapping at 76
characters per line. -/
def wrapBase64 (s : String) : String :=
  String.mk (wrapAux s.data)

/-- Source buildRawEmail, up to the final base64url encoding: the header
block joined by CRLF, a blank line, then the body verbatim. Extra headers are
modelled as an association list in insertion order (JS object entries). -/
def buildEmailText (toAddr subject body contentType : String)
    (extraHeaders : List (String × String)) : String :=
  let headers :=
    ["To: " ++ toAddr,
     "Subject: " ++ subject,
     "MIME-Version: 1.0",
     "Content-Type: " ++ contentType ++ "; charset=\"UTF-8\""]
    ++ extraHeaders.map (fun kv => kv.1 ++ ": " ++ kv.2)
  joinCRLF headers ++ "\r\n\r\n" ++ body

/-- Source buildRawEmail: build the email text and base64url encode it. -/
def buildRawEmail (toAddr subject body contentType : String)
    (extraHeaders : List (String × String)) : String :=
  base64UrlOfString (buildEmailText toAddr subject body contentType extraHeaders)

/-- Source line 507: the multipart boundary token derived from the current
time under a fixed namespace; the clock value is passed in explicitly. -/
def boundaryOf (now : Nat) : String :=
  "gmail_tool_boundary_" ++ Nat.repr now

/-- The body part of a multipart message (source lines 516-521). -/
def bodyPartText (boundary body : String) : String :=
  "--" ++ boundary ++ "\r\n" ++
  "Content-Type: text/plain; charset=\"UTF-8\"" ++ "\r\n" ++
  "Content-Transfer-Encoding: 7bit" ++ "\r\n\r\n" ++
  body ++ "\r\n"

/-- The header block of one attachment part (source lines 526-530), ending
with the blank line before the payload. -/
def attachmentPartHead (boundary : String) (a : AttachmentPayload) : String :=
  "--" ++ boundary ++ "\r\n" ++
  "Content-Type: " ++ a.mimeType ++ "; name=\"" ++ sanitizeHeaderValue a.filename ++ "\"" ++
  "\r\n" ++
  "Content-Disposition: attachment; filename=\"" ++ sanitizeHeaderValue a.filename ++ "\"" ++
  "\r\n" ++
  "Content-Transfer-Encoding: base64" ++ "\r\n\r\n"

/-- One full attachment part: headers, wrapped base64 payload, CRLF (source
lines 526-532). -/
def attachmentPartText (boundary : String) (a : AttachmentPayload) : String :=
  attachmentPartHead boundary a ++ wrapBase64 a.base64Data ++ "\r\n"

/-- Source buildRawEmailWithAttachments, up to the final base64url encoding,
for a nonempty attachment list: multipart headers, blank line, then the body
part, the attachment parts in order, and the closing boundary, joined with no
separator. -/
def buildEmailTextWithAttachments (now : Nat) (toAddr subject body : String)
    (attachments : List AttachmentPayload) : String :=
  let boundary := boundaryOf now
  let headers :=
    ["To: " ++ toAddr,
     "Subject: " ++ subject,
     "MIME-Version: 1.0",
     "Content-Type: multipart/mixed; boundary=\"" ++ boundary ++ "\""]
  let parts :=
    bodyPartText boundary body
      :: attachments.map (attachmentPartText boundary)
      ++ ["--" ++ boundary ++ "--"]
  joinCRLF headers ++ "\r\n\r\n" ++ sjoin parts

/-- Source buildRawEmailWithAttachments: an empty attachment list delegates to
the plain builder with text/plain; otherwise the multipart email text is built
and base64url encoded. -/
def buildRawEmailWithAttachments (now : Nat) (toAddr subject body : String)
    (attachments : List AttachmentPayload) : String :=
  match attachments with
  | [] => buildRawEmail toAddr subject body "text/plain" []
  | _ => base64UrlOfString (buildEmailTextWithAttachments now toAddr subject body attachments)

/-! ## Reply (source: replyToMessage, src/gmail-client.ts lines 247-267).
The external fetch of the original message is a collaborator; the fetched
Message is passed in directly. The field named from in the source is called
fromAddr here because that word is reserved in Lean. -/

/-- A fetched message, as produced by mapMessage. -/
structure Message where
  id : String
  threadId : String
  snippet : String
  fromAddr : String
  toAddr : String
  subject : String
  date : String
  body : String
  labelIds : List String

/-- The outbound send request: raw message and optional thread identifier. -/
structure SendRequest where
  raw : String
  threadId : Option String
deriving DecidableEq

/-- Source replyToMessage: prefix the subject with Re colon-space unless it
already starts with the literal Re colon, build the plain raw email to the
original sender with In-Reply-To and References headers set to the requesting
message identifier, and send on the original thread. -/
def replyToMessage (messageId : String) (original : Message) (body : String) : SendRequest :=
  let subject :=
    if jsStartsWith original.subject "Re:" then original.subject
    else "Re: " ++ original.subject
  { raw := buildRawEmail original.fromAddr subject body "text/plain"
      [("In-Reply-To", messageId), ("References", messageId)],
    threadId := some original.threadId }

/-! ## Byte normalizer (source: toBuffer, src/index.ts lines 856-878).
The five accepted wire shapes become a closed tagged union; the catch-all
constructor carries the JS typeof tag interpolated into the error message. -/

/-- A chunk yielded by a readable stream: a byte buffer, or anything else
(converted through Buffer.from; modelled for string chunks). -/
inductive StreamChunk where
  | bytes (b : List Nat)
  | text (s : String)

/-- Bytes of one stream chunk (source line 872). -/
def chunkBytes : StreamChunk → List Nat
  | .bytes b => b
  | .text s => utf8Encode s

/-- The possible shapes of the drive content response. -/
inductive DriveContent where
  | buffer (b : List Nat)
  | arrayBuffer (b : List Nat)
  | view (buf : List Nat) (byteOffset byteLength : Nat)
  | str (s : String)
  | stream (chunks : List StreamChunk)
  | other (typeTag : String)

/-- Source toBuffer: normalize any of the five supported shapes to one byte
sequence, and fail on anything else reporting the encountered type tag. -/
def toBuffer : DriveContent → Except String (List Nat)
  | .buffer b => Except.ok b
  | .arrayBuffer b => Except.ok b
  | .view buf off len => Except.ok ((buf.drop off).take len)
  | .str s => Except.ok (utf8Encode s)
  | .stream chunks => Except.ok (chunks.map chunkBytes).flatten
  | .other t => Except.error ("Unsupported drive content payload type: " ++ t)

/-! ## Message tree walker (source: extractBody, src/gmail-client.ts lines
574-601 and identically src/index.ts lines 690-717).

A MimePart is a tree node with optional part id, filename, mime type, an
optional body holding optional inline data and an optional attachment handle,
and a list of children. The JS payload.parts field may be absent or an
array; absence and the empty array behave identically everywhere in the
source (both coalesce to an empty array), so children are modelled as a
list. The list of children is a mutually defined inductive so that all
functions below are structurally recursive and reduce definitionally. -/

/-- The body slot of a MIME part: optional inline base64url data, optional
externalized attachment handle, optional size. -/
structure MimeBody where
  data : Option String := none
  attachmentId : Option String := none
  size : Option Nat := none

mutual

/-- One inbound MIME tree node: partId, filename, mimeType, body, children. -/
inductive MimePart where
  | mk : Option String → Option String → Option String → Option MimeBody → MimePartList → MimePart

/-- A list of sibling MIME parts. -/
inductive MimePartList where
  | nil : MimePartList
  | cons : MimePart → MimePartList → MimePartList

end

/-- The mimeType field of a part. -/
def MimePart.mimeType : MimePart → Option String
  | .mk _ _ t _ _ => t

/-- The optional inline data of the body of a part (the JS chain
part.body question-dot data). -/
def MimePart.bodyData : MimePart → Option String
  | .mk _ _ _ b _ => b.bind MimeBody.data

/-- The children of a part. -/
def MimePart.children : MimePart → MimePartList
  | .mk _ _ _ _ ps => ps

/-- JS Array.find over the sibling list: first part satisfying the
predicate. -/
def findPart (p : MimePart → Bool) : MimePartList → Option MimePart
  | .nil => none
  | .cons c cs => if p c then some c else findPart p cs

/-- The inline data of an optional part (the JS chain part question-dot body
question-dot data). -/
def optPartData (o : Option MimePart) : Option String :=
  o.bind MimePart.bodyData

/-- The JS pattern: if the optional data is truthy, return its base64url
UTF-8 decoding, otherwise fall through to the alternative. -/
def jsIfData (o : Option String) (els : String) : String :=
  match o with
  | some d => if d = "" then els else decodeBase64UrlUtf8 d
  | none => els

mutual

/-- Source extractBody on one part: inline data if truthy; else the first
immediate child found with mimeType text/plain, if its data is truthy; else
the first immediate child found with mimeType text/html, if its data is
truthy; else the first nonempty recursive result over the children in order;
else the empty string. -/
def extractBodyPart_ (p : MimePart) : String :=
  match p with
  | .mk _ _ _ body children =>
    jsIfData (body.bind MimeBody.data)
      (jsIfData (optPartData (findPart (fun q => q.mimeType == some "text/plain") children))
        (jsIfData (optPartData (findPart (fun q => q.mimeType == some "text/html") children))
          (extractBodyLoop children)))

/-- Source extractBody, final loop: return the first nonempty recursive
result (JS truthiness of the nested string). -/
def extractBodyLoop : MimePartList → String
  | .nil => ""
  | .cons c cs =>
    if extractBodyPart_ c = "" then extractBodyLoop cs else extractBodyPart_ c

end

/-- Source extractBody: empty string for an absent payload. -/
def extractBody (payload : Option MimePart) : String :=
  match payload with
  | none => ""
  | some p => extractBodyPart_ p

/-- Truthiness of optional inline data, as a Bool. -/
def hasData (o : Option String) : Bool :=
  match o with
  | some d => d ≠ ""
  | none => false

mutual

/-- Modelled from the words of claim C1 exactly as stated: after the root
data check, return the decoded data of the first immediate child that is a
text/plain part AND has inline data; if no such child exists, the decoded
data of the first immediate child that is a text/html part AND has inline
data; if neither exists, the first nonempty result of recursing into the
children in order; else the empty string. -/
def extractBodyClaimedPart (p : MimePart) : String :=
  match p with
  | .mk _ _ _ body children =>
    if hasData (body.bind MimeBody.data) then
      decodeBase64UrlUtf8 ((body.bind MimeBody.data).getD "")
    else
      match findPart (fun q => q.mimeType == some "text/plain" && hasData q.bodyData) children with
      | some q => decodeBase64UrlUtf8 (q.bodyData.getD "")
      | none =>
        match findPart (fun q => q.mimeType == some "text/html" && hasData q.bodyData) children with
        | some q => decodeBase64UrlUtf8 (q.bodyData.getD "")
        | none => extractBodyClaimedLoop children

/-- First nonempty result of the claimed recursion over the children. -/
def extractBodyClaimedLoop : MimePartList → String
  | .nil => ""
  | .cons c cs =>
    if extractBodyClaimedPart c = "" then extractBodyClaimedLoop cs else extractBodyClaimedPart c

end

/-- Claim C1 as stated, lifted to an optional payload. -/
def extractBodyClaimed (payload : Option MimePart) : String :=
  match payload with
  | none => ""
  | some p => extractBodyClaimedPart p

mutual

/-- The amended claim C1, written from its words: if the root carries
nonempty inline data, return its decoding; otherwise take the first immediate
child whose mimeType is text/plain regardless of whether it carries data: if
it exists and carries nonempty inline data, return its decoding; otherwise
take the first immediate child whose mimeType is text/html: if it exists and
carries nonempty inline data, return its decoding; otherwise return the first
nonempty result of recursing into the children in order; otherwise the empty
string. -/
def extractBodyAmendedPart (p : MimePart) : String :=
  match p with
  | .mk _ _ _ body children =>
    if hasData (body.bind MimeBody.data) then
      decodeBase64UrlUtf8 ((body.bind MimeBody.data).getD "")
    else if hasData (optPartData (findPart (fun q => q.mimeType == some "text/plain") children)) then
      decodeBase64UrlUtf8 ((optPartData (findPart (fun q => q.mimeType == some "text/plain") children)).getD "")
    else if hasData (optPartData (findPart (fun q => q.mimeType == some "text/html") children)) then
      decodeBase64UrlUtf8 ((optPartData (findPart (fun q => q.mimeType == some "text/html") children)).getD "")
    else extractBodyAmendedLoop children

/-- First nonempty result of the amended recursion over the children. -/
def extractBodyAmendedLoop : MimePartList → String
  | .nil => ""
  | .cons c cs =>
    if extractBodyAmendedPart c = "" then extractBodyAmendedLoop cs else extractBodyAmendedPart c

end

/-- The amended claim C1, lifted to an optional payload. -/
def extractBodyAmended (payload : Option MimePart) : String :=
  match payload with
  | none => ""
  | some p => extractBodyAmendedPart p

/-! ## Batched summary fetcher (source: listMessageSummaries,
src/index.ts lines 229-272, and LIST_SUMMARY_BATCH_SIZE line 30).

The upstream list call and the per-message metadata fetch are external
collaborators; the fetch is a function from a message id to the detail
response body. Promise.all resolves to the results in the order the promises
were supplied regardless of internal completion order, so one batch is a map
over the batch in order. The summary field named from in the source is called
fromHeader here because that word is reserved in Lean. -/

/-- The batch size constant (source line 30). -/
def LIST_SUMMARY_BATCH_SIZE : Nat := 5

/-- One name-value header of a metadata response. -/
structure MessagePartHeader where
  name : Option String := none
  value : Option String := none

/-- The payload of a metadata response, carrying the headers. -/
structure DetailPayload where
  headers : Option (List MessagePartHeader) := none

/-- The body of one metadata fetch response. -/
structure DetailResult where
  id : Option String := none
  threadId : Option String := none
  snippet : Option String := none
  payload : Option DetailPayload := none

/-- One reference from the upstream list call, after the source filter that
keeps only references with an id. -/
structure MessageRef where
  id : String
  threadId : Option String := none
  snippet : Option String := none
deriving DecidableEq

/-- One assembled list summary. -/
structure MessageListSummary where
  id : String
  threadId : String
  fromHeader : String
  subject : String
  date : String
  snippet : String
deriving DecidableEq

/-- Source getHeaderValue: first header whose lowercased name matches the
lowercased wanted name, its value, or the empty string. -/
def getHeaderValue (headers : Option (List MessagePartHeader)) (name : String) : String :=
  (((headers.bind
      (fun hs => hs.find? (fun h => (h.name.map jsToLower) == some (jsToLower name)))).bind
    MessagePartHeader.value).getD "")

/-- One summary assembled from a reference and its fetched detail (source
lines 248-265): each field falls back from the detail to the reference and
then to the empty string via nullish coalescing. -/
def summarizeOne (fetch : String → DetailResult) (ref : MessageRef) : MessageListSummary :=
  let detail := fetch ref.id
  { id := detail.id.getD ref.id,
    threadId := detail.threadId.getD (ref.threadId.getD ""),
    fromHeader := getHeaderValue (detail.payload.bind DetailPayload.headers) "From",
    subject := getHeaderValue (detail.payload.bind DetailPayload.headers) "Subject",
    date := getHeaderValue (detail.payload.bind DetailPayload.headers) "Date",
    snippet := detail.snippet.getD (ref.snippet.getD "") }

/-- Source listMessageSummaries, batching loop: slice off the first
LIST_SUMMARY_BATCH_SIZE references, fetch the whole batch (Promise.all keeps
supply order), append, and continue with the rest until exhausted. -/
def listMessageSummaries (fetch : String → DetailResult)
    (refs : List MessageRef) : List MessageListSummary :=
  if refs = [] then []
  else (refs.take LIST_SUMMARY_BATCH_SIZE).map (summarizeOne fetch)
    ++ listMessageSummaries fetch (refs.drop LIST_SUMMARY_BATCH_SIZE)
termination_by refs.length
decreasing_by
  cases refs with
  | nil => simp_all
  | cons a l => simp [List.length_drop, LIST_SUMMARY_BATCH_SIZE]; omega

/-- The batch partition performed by the source loop, as a list of slices. -/
def mkBatches (refs : List MessageRef) : List (List MessageRef) :=
  if refs = [] then []
  else refs.take LIST_SUMMARY_BATCH_SIZE :: mkBatches (refs.drop LIST_SUMMARY_BATCH_SIZE)
termination_by refs.length
decreasing_by
  cases refs with
  | nil => simp_all
  | cons a l => simp [List.length_drop, LIST_SUMMARY_BATCH_SIZE]; omega

/-! ## Local attachment payload resolver (source: readLocalAttachmentPayloads
and inferMimeTypeFromFilename, src/gmail-client.ts lines 664-693).

The local file reader (Bun.file) is an external collaborator, modelled as a
function from a path to the file facts the source consults: existence, the
reported content type (empty when the collaborator reports none), and the
byte content. -/

/-- One attachment request: path plus optional overrides. -/
structure SendAttachmentInput where
  path : String
  filename : Option String := none
  mimeType : Option String := none

/-- What the local file reader collaborator reports for one path. -/
structure LocalFileInfo where
  fileExists : Bool
  fileType : String
  bytes : List Nat

/-- Source inferMimeTypeFromFilename: case-insensitive suffix table with
final fallback application/octet-stream. -/
def inferMimeTypeFromFilename (filename : String) : String :=
  let lower := jsToLower filename
  if jsEndsWith lower ".png" then "image/png"
  else if jsEndsWith lower ".jpg" || jsEndsWith lower ".jpeg" then "image/jpeg"
  else if jsEndsWith lower ".webp" then "image/webp"
  else if jsEndsWith lower ".gif" then "image/gif"
  else if jsEndsWith lower ".pdf" then "application/pdf"
  else if jsEndsWith lower ".txt" then "text/plain"
  else if jsEndsWith lower ".csv" then "text/csv"
  else "application/octet-stream"

/-- JS path.split on slash followed by pop: the last segment of the split
(split always yields at least one element, so pop is never undefined). -/
def lastPathSegment (path : String) : String :=
  String.mk (((splitOnChar '/' path.data).getLast?).getD [])

/-- Resolution of one local attachment, given the file facts for its path
(source lines 681-690): missing file throws; filename falls back from the
override to the last path segment to attachment.bin; mime type falls back
from the override to the collaborator-reported type to extension inference;
the payload is the standard base64 of the file bytes. -/
def resolveLocalAttachment (fs : String → LocalFileInfo)
    (a : SendAttachmentInput) : Except String AttachmentPayload :=
  let file := fs a.path
  if !file.fileExists then
    Except.error ("Attachment file not found: " ++ a.path)
  else
    let filename := jsOrOptStr a.filename (jsOrStr (lastPathSegment a.path) "attachment.bin")
    let mimeType := jsOrOptStr a.mimeType (jsOrStr file.fileType (inferMimeTypeFromFilename filename))
    Except.ok { filename := filename, mimeType := mimeType,
                base64Data := base64Encode file.bytes }

/-- Source readLocalAttachmentPayloads: resolve in order; the first thrown
error aborts the whole operation with no partial list. -/
def readLocalAttachmentPayloads (fs : String → LocalFileInfo) :
    List SendAttachmentInput → Except String (List AttachmentPayload)
  | [] => Except.ok []
  | a :: rest =>
    match resolveLocalAttachment fs a with
    | Except.error e => Except.error e
    | Except.ok p =>
      match readLocalAttachmentPayloads fs rest with
      | Except.error e => Except.error e
      | Except.ok ps => Except.ok (p :: ps)

/-- Modelled from the words of claim C6: the resolved filename is the
explicit override when supplied (nonempty), otherwise the last path segment,
otherwise attachment.bin. -/
def claimLocalFilename (a : SendAttachmentInput) : String :=
  match a.filename with
  | some f => if f ≠ "" then f else jsOrStr (lastPathSegment a.path) "attachment.bin"
  | none => jsOrStr (lastPathSegment a.path) "attachment.bin"

/-- Modelled from the words of claim C6: the resolved mime type is the
explicit override when supplied (nonempty), otherwise the collaborator
reported type when nonempty, otherwise the extension-inferred type (whose own
fallback is application/octet-stream). -/
def claimLocalMimeType (fs : String → LocalFileInfo) (a : SendAttachmentInput) : String :=
  match a.mimeType with
  | some m => if m ≠ "" then m else jsOrStr (fs a.path).fileType (inferMimeTypeFromFilename (claimLocalFilename a))
  | none => jsOrStr (fs a.path).fileType (inferMimeTypeFromFilename (claimLocalFilename a))

/-- Modelled from the words of claim C9: the reply subject rule. -/
def claimReplySubject (s : String) : String :=
  if jsStartsWith s "Re:" then s else "Re: " ++ s

/-! ## Line structure helpers for the wrapped payload claims -/

/-- True for characters of the standard base64 alphabet, padding included:
the character set of payloads produced by Buffer.toString with base64. -/
def isB64Char (c : Char) : Bool :=
  ('A' ≤ c && c ≤ 'Z') || ('a' ≤ c && c ≤ 'z') || ('0' ≤ c && c ≤ '9')
    || c = '+' || c = '/' || c = '='

/-- Consecutive chunks of at most 76 characters: all chunks but the last have
exactly 76 characters and the last has fewer. -/
def chunks76 (s : List Char) : List (List Char) :=
  if 76 ≤ s.length then s.take 76 :: chunks76 (s.drop 76) else [s]
termination_by s.length
decreasing_by simp [List.length_drop] ; omega

/-- Join a list of lines with CRLF separators. -/
def joinLinesCRLF : List (List Char) → List Char
  | [] => []
  | [l] => l
  | l :: ls => l ++ '\r' :: '\n' :: joinLinesCRLF ls

/-- Split a character list into its CRLF-separated lines. -/
def crlfLines : List Char → List (List Char)
  | [] => [[]]
  | '\r' :: '\n' :: t => [] :: crlfLines t
  | c :: t =>
    match crlfLines t with
    | [] => [[c]]
    | l :: ls => (c :: l) :: ls

/-- A constant detail fetch used as a concrete collaborator in witnesses. -/
def fetch0 : String → DetailResult := fun _ => {}

/-- Twelve concrete message references used in the claim C5 witness. -/
def refs12 : List MessageRef :=
  [{ id := "m01" }, { id := "m02" }, { id := "m03" }, { id := "m04" }, { id := "m05" },
   { id := "m06" }, { id := "m07" }, { id := "m08" }, { id := "m09" }, { id := "m10" },
   { id := "m11" }, { id := "m12" }]

/-- Concrete tree for the claim C1 counterexample: a text/html grandchild
with inline data SA (which decodes to H). -/
def exHtmlChild : MimePart :=
  .mk none none (some "text/html") (some { data := some "SA" }) .nil

/-- Concrete tree for the claim C1 counterexample: a first text/plain child
with no inline data but an html grandchild. -/
def exPlainNoData : MimePart :=
  .mk none none (some "text/plain") none (.cons exHtmlChild .nil)

/-- Concrete tree for the claim C1 counterexample: a second text/plain child
with inline data UA (which decodes to P). -/
def exPlainWithData : MimePart :=
  .mk none none (some "text/plain") (some { data := some "UA" }) .nil

/-- Concrete root for the claim C1 counterexample: no inline data, children
as above. -/
def exC1 : MimePart :=
  .mk none none (some "multipart/mixed") none
    (.cons exPlainNoData (.cons exPlainWithData .nil))

/-- Concrete file reader for the claim C6 witness: one existing csv file
with bytes hi and no collaborator-reported type. -/
def fsCsv : String → LocalFileInfo :=
  fun p => if p = "/tmp/x.csv" then { fileExists := true, fileType := "", bytes := [104, 105] }
           else { fileExists := false, fileType := "", bytes := [] }

/-- Concrete file reader for the claim C7 witness: no file exists. -/
def fsNone : String → LocalFileInfo :=
  fun _ => { fileExists := false, fileType := "", bytes := [] }

/-- Concrete attachment payload for the claim C3 witness. -/
def att0 : AttachmentPayload :=
  { filename := "f.txt", mimeType := "text/plain", base64Data := "QUJD" }

/-- Concrete attachment payload with header-breaking filename characters for
the claim C4 witness. -/
def att1 : AttachmentPayload :=
  { filename := "evil\"name\r\n.txt", mimeType := "text/plain", base64Data := "QQ==" }

/-! ## General lemmas -/

theorem joinCRLF_cons_cons (a b : String) (l : List String) :
    joinCRLF (a :: b :: l) = a ++ "\r\n" ++ joinCRLF (b :: l) := rfl

theorem joinCRLF_head_map (h : String) (l : List (String × String)) :
    joinCRLF (h :: l.map (fun kv => kv.1 ++ ": " ++ kv.2)) =
      h ++ sjoin (l.map (fun kv => "\r\n" ++ (kv.1 ++ ": " ++ kv.2))) := by
  induction l generalizing h with
  | nil => simp [joinCRLF, sjoin, String.append_empty]
  | cons kv t ih =>
    simp only [List.map_cons, joinCRLF_cons_cons, ih, sjoin]
    simp [String.append_assoc]

theorem sjoin_split (x : String) (l : List String) (hx : x ∈ l) :
    ∃ p q, sjoin l = p ++ (x ++ q) := by
  induction l with
  | nil => simp at hx
  | cons h t ih =>
    rcases List.mem_cons.mp hx with he | ht
    · exact ⟨"", sjoin t, by simp [sjoin, he, String.empty_append]⟩
    · obtain ⟨p, q, hpq⟩ := ih ht
      exact ⟨h ++ p, q, by simp [sjoin, hpq, String.append_assoc]⟩

/-! ## Claim theorems -/

/-- Claim C2: for every clock value, recipient, subject and body, building
with the empty attachment list returns exactly the string the plain builder
returns for the same inputs with content type text/plain; no multipart
wrapping is produced. -/
theorem buildRawEmailWithAttachments_empty_eq_plain (now : Nat) (toAddr subject body : String) :
    buildRawEmailWithAttachments now toAddr subject body [] =
      buildRawEmail toAddr subject body "text/plain" [] := rfl

/-- Claim C8: the byte normalizer accepts exactly the five supported shapes,
returning the input bytes unchanged for buffers and array buffers, the viewed
slice for binary views, the UTF-8 bytes for strings, and the chunks
concatenated in arrival order for streams; every other shape fails with an
UnsupportedPayloadType error reporting the encountered type tag. -/
theorem toBuffer_shapes :
    (∀ b, toBuffer (DriveContent.buffer b) = Except.ok b) ∧
    (∀ b, toBuffer (DriveContent.arrayBuffer b) = Except.ok b) ∧
    (∀ buf off len, toBuffer (DriveContent.view buf off len) =
      Except.ok ((buf.drop off).take len)) ∧
    (∀ s, toBuffer (DriveContent.str s) = Except.ok (utf8Encode s)) ∧
    (∀ chunks, toBuffer (DriveContent.stream chunks) =
      Except.ok (chunks.map chunkBytes).flatten) ∧
    (∀ byteChunks : List (List Nat),
      toBuffer (DriveContent.stream (byteChunks.map StreamChunk.bytes)) =
        Except.ok byteChunks.flatten) ∧
    (∀ t, toBuffer (DriveContent.other t) =
      Except.error ("Unsupported drive content payload type: " ++ t)) := by
  refine ⟨fun _ => rfl, fun _ => rfl, fun _ _ _ => rfl, fun _ => rfl, fun _ => rfl, ?_,
    fun _ => rfl⟩
  intro byteChunks
  simp [toBuffer, List.map_map, Function.comp_def, chunkBytes]

/-- Claim C9: the reply builds its raw message via the plain path with
In-Reply-To and References both set to the requesting message identifier,
sends on the original thread identifier, and prefixes the subject with Re
colon space unless it already starts with the literal case-sensitive Re
colon; lowercase or spaced variants are prefixed again. -/
theorem replyToMessage_spec (messageId : String) (original : Message) (body : String) :
    replyToMessage messageId original body =
      { raw := buildRawEmail original.fromAddr (claimReplySubject original.subject) body
          "text/plain" [("In-Reply-To", messageId), ("References", messageId)],
        threadId := some original.threadId } ∧
    claimReplySubject "Re: status" = "Re: status" ∧
    claimReplySubject "re: status" = "Re: re: status" ∧
    claimReplySubject "Re : status" = "Re: Re : status" := by
  refine ⟨rfl, by decide, by decide, by decide⟩

/-- Claim C10: header sanitization is applied only to attachment filenames:
the to, subject and extra header values are inserted into the plain header
block character for character, and the attachment mime type is inserted into
the part headers character for character, so a CRLF embedded in the to field
yields an additional header line (shown concretely for an injected Bcc
line). -/
theorem header_values_inserted_verbatim :
    (∀ toAddr subject body ct (extra : List (String × String)),
      buildEmailText toAddr subject body ct extra =
        "To: " ++ toAddr ++ "\r\n" ++ "Subject: " ++ subject ++ "\r\n" ++
        "MIME-Version: 1.0" ++ "\r\n" ++ "Content-Type: " ++ ct ++ "; charset=\"UTF-8\"" ++
        sjoin (extra.map (fun kv => "\r\n" ++ (kv.1 ++ ": " ++ kv.2))) ++
        "\r\n\r\n" ++ body) ∧
    (∀ boundary a, attachmentPartHead boundary a =
      "--" ++ boundary ++ "\r\n" ++
      "Content-Type: " ++ a.mimeType ++ "; name=\"" ++ sanitizeHeaderValue a.filename ++ "\"" ++
      "\r\n" ++
      "Content-Disposition: attachment; filename=\"" ++ sanitizeHeaderValue a.filename ++ "\"" ++
      "\r\n" ++ "Content-Transfer-Encoding: base64" ++ "\r\n\r\n") ∧
    ("Bcc: sneak@evil.com".data ∈
      crlfLines (buildEmailText "a@x.com\r\nBcc: sneak@evil.com" "Hi" "b" "text/plain" []).data) := by
  refine ⟨?_, fun _ _ => rfl, by decide⟩
  intro toAddr subject body ct extra
  show joinCRLF _ ++ "\r\n\r\n" ++ body = _
  simp only [List.cons_append, List.nil_append, joinCRLF_cons_cons, joinCRLF_head_map]
  simp only [String.append_assoc]

theorem jsIfData_eq (o : Option String) (e : String) :
    jsIfData o e = if hasData o then decodeBase64UrlUtf8 (o.getD "") else e := by
  cases o with
  | none => simp [jsIfData, hasData]
  | some d =>
    by_cases hd : d = "" <;> simp [jsIfData, hasData, hd]

mutual

theorem extractBodyPart_eq_amended (p : MimePart) :
    extractBodyPart_ p = extractBodyAmendedPart p := by
  cases p with
  | mk pid fn mt body children =>
    simp only [extractBodyPart_, extractBodyAmendedPart, jsIfData_eq,
      extractBodyLoop_eq_amended children]

theorem extractBodyLoop_eq_amended (l : MimePartList) :
    extractBodyLoop l = extractBodyAmendedLoop l := by
  cases l with
  | nil => rfl
  | cons c cs =>
    simp only [extractBodyLoop, extractBodyAmendedLoop,
      extractBodyPart_eq_amended c, extractBodyLoop_eq_amended cs]

end

/-- Claim C1, amended: extractBody returns the decoded root data when the
root carries nonempty inline data; otherwise the decoded data of the first
immediate child whose mimeType is text/plain, provided that child carries
nonempty inline data; otherwise the decoded data of the first immediate child
whose mimeType is text/html, provided it carries nonempty inline data;
otherwise the first nonempty result of recursing into the children in order;
and the empty string if the whole tree yields nothing, never an error. -/
theorem extractBody_amended_spec (payload : Option MimePart) :
    extractBody payload = extractBodyAmended payload := by
  cases payload with
  | none => rfl
  | some p => exact extractBodyPart_eq_amended p

/-- Claim C1, counterexample to the claim as stated: on a tree whose first
text/plain child has no inline data but hides a text/html grandchild, while a
second text/plain child does carry inline data, the code returns the decoded
grandchild html text (H) and not the decoded data of the first text/plain
child with inline data (P) that the claim promises. -/
theorem extractBody_claim_counterexample :
    extractBody (some exC1) ≠ extractBodyClaimed (some exC1) ∧
    extractBody (some exC1) = "H" ∧
    extractBodyClaimed (some exC1) = "P" := by
  refine ⟨by decide, by decide, by decide⟩

theorem listMessageSummaries_eq_map (fetch : String → DetailResult) (refs : List MessageRef) :
    listMessageSummaries fetch refs = refs.map (summarizeOne fetch) := by
  rw [listMessageSummaries]
  by_cases h : refs = []
  · simp [h]
  · rw [if_neg h, listMessageSummaries_eq_map fetch (refs.drop LIST_SUMMARY_BATCH_SIZE),
      ← List.map_append, List.take_append_drop]
termination_by refs.length
decreasing_by
  have h2 : 0 < refs.length := List.length_pos.mpr h
  simp [List.length_drop, LIST_SUMMARY_BATCH_SIZE]
  omega

theorem mkBatches_flatten (refs : List MessageRef) :
    (mkBatches refs).flatten = refs := by
  rw [mkBatches]
  by_cases h : refs = []
  · simp [h]
  · rw [if_neg h]
    simp only [List.flatten_cons, mkBatches_flatten (refs.drop LIST_SUMMARY_BATCH_SIZE)]
    exact List.take_append_drop _ _
termination_by refs.length
decreasing_by
  have h2 : 0 < refs.length := List.length_pos.mpr h
  simp [List.length_drop, LIST_SUMMARY_BATCH_SIZE]
  omega

theorem mkBatches_sizes_12 (refs : List MessageRef) (h : refs.length = 12) :
    (mkBatches refs).map List.length = [5, 5, 2] := by
  have h0 : refs ≠ [] := by intro e; simp [e] at h
  have l1 : (refs.drop LIST_SUMMARY_BATCH_SIZE).length = 7 := by
    simp [List.length_drop, LIST_SUMMARY_BATCH_SIZE, h]
  have h1 : refs.drop LIST_SUMMARY_BATCH_SIZE ≠ [] := by
    intro e; rw [e] at l1; simp at l1
  have l2 : ((refs.drop LIST_SUMMARY_BATCH_SIZE).drop LIST_SUMMARY_BATCH_SIZE).length = 2 := by
    simp [List.length_drop, LIST_SUMMARY_BATCH_SIZE, h]
  have h2 : (refs.drop LIST_SUMMARY_BATCH_SIZE).drop LIST_SUMMARY_BATCH_SIZE ≠ [] := by
    intro e; rw [e] at l2; simp at l2
  have l3 : (((refs.drop LIST_SUMMARY_BATCH_SIZE).drop LIST_SUMMARY_BATCH_SIZE).drop
      LIST_SUMMARY_BATCH_SIZE) = [] := by
    apply List.eq_nil_of_length_eq_zero
    simp [List.length_drop, LIST_SUMMARY_BATCH_SIZE, h]
  rw [mkBatches, if_neg h0, mkBatches, if_neg h1, mkBatches, if_neg h2, l3, mkBatches, if_pos rfl]
  simp [List.length_take, LIST_SUMMARY_BATCH_SIZE, h, l1, l2]

/-- Claim C5: the batched summary fetcher returns exactly one summary per
reference in the original reference order (the batches, mapped in supply
order by Promise.all, concatenate to the plain map over the references); the
slicing loop partitions the references into consecutive batches of size 5
whose concatenation is the original list; and 12 references yield batch sizes
5, 5 and 2. Completion order within a batch cannot influence the result since
Promise.all is order-preserving, which the map form expresses. -/
theorem listMessageSummaries_order_and_batches (fetch : String → DetailResult)
    (refs : List MessageRef) :
    listMessageSummaries fetch refs = refs.map (summarizeOne fetch) ∧
    (mkBatches refs).flatten = refs ∧
    (refs.length = 12 → (mkBatches refs).map List.length = [5, 5, 2]) :=
  ⟨listMessageSummaries_eq_map fetch refs, mkBatches_flatten refs,
    fun h => mkBatches_sizes_12 refs h⟩

/-- Witness for claim C5 at twelve concrete references and a concrete
collaborator. -/
theorem listMessageSummaries_order_and_batches_witness :
    listMessageSummaries fetch0 refs12 = refs12.map (summarizeOne fetch0) ∧
    (mkBatches refs12).map List.length = [5, 5, 2] :=
  ⟨(listMessageSummaries_order_and_batches fetch0 refs12).1,
    (listMessageSummaries_order_and_batches fetch0 refs12).2.2 (by decide)⟩

theorem claimFilename_eq (a : SendAttachmentInput) :
    jsOrOptStr a.filename (jsOrStr (lastPathSegment a.path) "attachment.bin") =
      claimLocalFilename a := by
  cases h : a.filename with
  | none => simp [jsOrOptStr, claimLocalFilename, h]
  | some f => by_cases hf : f = "" <;> simp [jsOrOptStr, jsOrStr, claimLocalFilename, h, hf]

theorem claimMimeType_eq (fs : String → LocalFileInfo) (a : SendAttachmentInput) :
    jsOrOptStr a.mimeType
        (jsOrStr (fs a.path).fileType (inferMimeTypeFromFilename (claimLocalFilename a))) =
      claimLocalMimeType fs a := by
  cases h : a.mimeType with
  | none => simp [jsOrOptStr, claimLocalMimeType, h]
  | some m => by_cases hm : m = "" <;> simp [jsOrOptStr, jsOrStr, claimLocalMimeType, h, hm]

/-- Claim C6: for an existing local file, the resolved filename is the
explicit override when supplied, otherwise the last path segment, otherwise
attachment.bin; the resolved mime type is the explicit override when
supplied, otherwise the collaborator-reported type, otherwise the
extension-inferred type whose own fallback is application/octet-stream; the
payload is the standard base64 of the file bytes. An override supplied as the
empty string behaves like an absent override (JS truthiness). -/
theorem resolveLocalAttachment_defaults (fs : String → LocalFileInfo)
    (a : SendAttachmentInput) (h : (fs a.path).fileExists = true) :
    resolveLocalAttachment fs a =
      Except.ok { filename := claimLocalFilename a,
                  mimeType := claimLocalMimeType fs a,
                  base64Data := base64Encode (fs a.path).bytes } := by
  simp only [resolveLocalAttachment, h, Bool.not_true, Bool.false_eq_true, if_false]
  rw [claimFilename_eq, claimMimeType_eq]

/-- Witness for claim C6: the spec example, a local csv path with no
overrides and content bytes of the two characters h i. -/
theorem resolveLocalAttachment_defaults_witness :
    (fsCsv "/tmp/x.csv").fileExists = true ∧
    resolveLocalAttachment fsCsv { path := "/tmp/x.csv" } =
      Except.ok { filename := "x.csv", mimeType := "text/csv", base64Data := "aGk=" } := by
  refine ⟨by decide, ?_⟩
  rw [resolveLocalAttachment_defaults fsCsv { path := "/tmp/x.csv" } (by decide)]
  exact congrArg Except.ok (by decide)

/-- Claim C7: when some requested local attachment path does not exist, the
whole resolution fails with an error naming a missing path, and since the
result is an error, no partial resolved-attachment list is returned. -/
theorem readLocalAttachmentPayloads_missing_file_error (fs : String → LocalFileInfo)
    (atts : List SendAttachmentInput)
    (h : ∃ a ∈ atts, (fs a.path).fileExists = false) :
    ∃ p, readLocalAttachmentPayloads fs atts =
        Except.error ("Attachment file not found: " ++ p) ∧
      ∃ a ∈ atts, a.path = p ∧ (fs a.path).fileExists = false := by
  induction atts with
  | nil => simp at h
  | cons a rest ih =>
    by_cases hx : (fs a.path).fileExists = false
    · refine ⟨a.path, ?_, a, List.mem_cons_self a rest, rfl, hx⟩
      simp [readLocalAttachmentPayloads, resolveLocalAttachment, hx]
    · have hx' : (fs a.path).fileExists = true := by
        cases hb : (fs a.path).fileExists with
        | false => exact absurd hb hx
        | true => rfl
      obtain ⟨a', ha', hm⟩ := h
      have ht : a' ∈ rest := by
        rcases List.mem_cons.mp ha' with he | ht
        · rw [he] at hm; rw [hm] at hx'; simp at hx'
        · exact ht
      obtain ⟨p, hp, a2, h2, h3, h4⟩ := ih ⟨a', ht, hm⟩
      refine ⟨p, ?_, a2, List.mem_cons_of_mem a h2, h3, h4⟩
      simp [readLocalAttachmentPayloads, resolveLocalAttachment, hx', hp]

/-- Witness for claim C7: a single attachment whose path is absent in the
file reader. -/
theorem readLocalAttachmentPayloads_missing_file_error_witness :
    ∃ p, readLocalAttachmentPayloads fsNone [{ path := "/missing/a.txt" }] =
        Except.error ("Attachment file not found: " ++ p) ∧
      ∃ a ∈ [({ path := "/missing/a.txt" } : SendAttachmentInput)],
        a.path = p ∧ (fsNone a.path).fileExists = false :=
  readLocalAttachmentPayloads_missing_file_error fsNone _
    ⟨{ path := "/missing/a.txt" }, by simp, by decide⟩

theorem isB64_dot (c : Char) (h : isB64Char c = true) : jsDot c = true := by
  simp only [jsDot, Bool.and_eq_true, decide_eq_true_eq]
  refine ⟨⟨⟨?_, ?_⟩, ?_⟩, ?_⟩ <;>
    · intro he
      subst he
      exact absurd h (by decide)

theorem all_b64_dot (l : List Char) (h : l.all isB64Char = true) : l.all jsDot = true := by
  simp only [List.all_eq_true] at h ⊢
  exact fun x hx => isB64_dot x (h x hx)

theorem wrapAux_small (s : List Char) (h : s.length < 76) : wrapAux s = s := by
  induction s with
  | nil => rw [wrapAux]
  | cons c t ih =>
    rw [wrapAux]
    have hc : ¬(76 ≤ (c :: t).length && ((c :: t).take 76).all jsDot) = true := by
      simp only [Bool.and_eq_true, decide_eq_true_eq, not_and]
      intro hle
      omega
    rw [if_neg hc, ih (by simp only [List.length_cons] at h; omega)]

theorem chunks76_ne_nil (s : List Char) : chunks76 s ≠ [] := by
  rw [chunks76]
  split <;> simp

theorem chunks76_spec (s : List Char) :
    ∀ c ∈ chunks76 s, c.length ≤ 76 ∧ ∀ x ∈ c, x ∈ s := by
  rw [chunks76]
  by_cases h : 76 ≤ s.length
  · rw [if_pos h]
    intro c hc
    rcases List.mem_cons.mp hc with he | hmem
    · subst he
      exact ⟨by simp, fun x hx => List.take_subset _ _ hx⟩
    · obtain ⟨hlen, hsub⟩ := chunks76_spec (s.drop 76) c hmem
      exact ⟨hlen, fun x hx => List.drop_subset _ _ (hsub x hx)⟩
  · rw [if_neg h]
    intro c hc
    simp only [List.mem_singleton] at hc
    subst hc
    exact ⟨by omega, fun x hx => hx⟩
termination_by s.length
decreasing_by simp [List.length_drop]; omega

theorem wrapAux_chunks (s : List Char) (hall : s.all jsDot = true) :
    wrapAux s = joinLinesCRLF (chunks76 s) := by
  have key : ∀ n (s : List Char), s.length = n → s.all jsDot = true →
      wrapAux s = joinLinesCRLF (chunks76 s) := by
    intro n
    induction n using Nat.strong_induction_on with
    | _ n ih =>
      intro s hn hall
      by_cases h : 76 ≤ s.length
      · cases s with
        | nil => simp at h
        | cons c t =>
          have hd : ((c :: t).take 76).all jsDot = true := by
            simp only [List.all_eq_true] at hall ⊢
            exact fun x hx => hall x (List.take_subset _ _ hx)
          have hdrop : ((c :: t).drop 76).all jsDot = true := by
            simp only [List.all_eq_true] at hall ⊢
            exact fun x hx => hall x (List.drop_subset _ _ hx)
          rw [wrapAux, if_pos (by simp only [Bool.and_eq_true, decide_eq_true_eq]; exact ⟨h, hd⟩)]
          rw [chunks76, if_pos h]
          rw [ih ((c :: t).drop 76).length
            (by simp only [List.length_drop, List.length_cons] at h hn ⊢; omega)
            ((c :: t).drop 76) rfl hdrop]
          obtain ⟨l, ls, hls⟩ := List.exists_cons_of_ne_nil (chunks76_ne_nil ((c :: t).drop 76))
          rw [hls]
          rfl
      · rw [wrapAux_small s (by omega), chunks76, if_neg h]
        rfl
  exact key s.length s rfl hall

/-- Claim C3: for a nonempty attachment list, each attachment payload is
embedded in the built email text as a block of its own lines (between the
blank line ending the part headers and the CRLF before the next boundary),
that block is exactly the consecutive chunks of the payload joined with CRLF,
and every such line has at most 76 characters and consists of base64
characters only (hence contains no embedded line break); the raw message is
the base64url encoding of that email text. The payload is assumed to be a
base64 string, which is what the resolvers always supply. -/
theorem attachment_base64_lines_le_76 (now : Nat) (toAddr subject body : String)
    (atts : List AttachmentPayload) (hne : atts ≠ [])
    (a : AttachmentPayload) (ha : a ∈ atts)
    (hb64 : a.base64Data.data.all isB64Char = true) :
    (∃ pre post : String,
        buildEmailTextWithAttachments now toAddr subject body atts =
          pre ++ "\r\n\r\n" ++ wrapBase64 a.base64Data ++ "\r\n" ++ post) ∧
    (wrapBase64 a.base64Data).data = joinLinesCRLF (chunks76 a.base64Data.data) ∧
    (∀ line ∈ chunks76 a.base64Data.data, line.length ≤ 76 ∧ line.all isB64Char = true) ∧
    buildRawEmailWithAttachments now toAddr subject body atts =
      base64UrlOfString (buildEmailTextWithAttachments now toAddr subject body atts) := by
  refine ⟨?_, ?_, ?_, ?_⟩
  · have hmem : attachmentPartText (boundaryOf now) a ∈
        (bodyPartText (boundaryOf now) body
          :: (atts.map (attachmentPartText (boundaryOf now))
          ++ ["--" ++ boundaryOf now ++ "--"])) :=
      List.mem_cons_of_mem _ (List.mem_append_left _ (List.mem_map_of_mem _ ha))
    obtain ⟨p, q, hpq⟩ := sjoin_split _ _ hmem
    refine ⟨joinCRLF ["To: " ++ toAddr, "Subject: " ++ subject, "MIME-Version: 1.0",
        "Content-Type: multipart/mixed; boundary=\"" ++ boundaryOf now ++ "\""] ++
        "\r\n\r\n" ++ p ++
        ("--" ++ boundaryOf now ++ "\r\n" ++
         "Content-Type: " ++ a.mimeType ++ "; name=\"" ++ sanitizeHeaderValue a.filename ++
         "\"" ++ "\r\n" ++
         "Content-Disposition: attachment; filename=\"" ++ sanitizeHeaderValue a.filename ++
         "\"" ++ "\r\n" ++ "Content-Transfer-Encoding: base64"),
      q, ?_⟩
    calc buildEmailTextWithAttachments now toAddr subject body atts
        = joinCRLF ["To: " ++ toAddr, "Subject: " ++ subject, "MIME-Version: 1.0",
            "Content-Type: multipart/mixed; boundary=\"" ++ boundaryOf now ++ "\""] ++
          "\r\n\r\n" ++
          sjoin (bodyPartText (boundaryOf now) body
            :: (atts.map (attachmentPartText (boundaryOf now))
            ++ ["--" ++ boundaryOf now ++ "--"])) := rfl
      _ = _ := by
          rw [hpq]
          simp only [attachmentPartText, attachmentPartHead, String.append_assoc]
  · rw [show (wrapBase64 a.base64Data).data = wrapAux a.base64Data.data from rfl,
      wrapAux_chunks _ (all_b64_dot _ hb64)]
  · intro line hline
    obtain ⟨hlen, hsub⟩ := chunks76_spec a.base64Data.data line hline
    refine ⟨hlen, ?_⟩
    simp only [List.all_eq_true] at hb64 ⊢
    exact fun x hx => hb64 x (hsub x hx)
  · cases atts with
    | nil => exact absurd rfl hne
    | cons x xs => rfl

/-- Witness for claim C3 at one concrete attachment with base64 payload
QUJD. -/
theorem attachment_base64_lines_le_76_witness :
    (∃ pre post : String,
        buildEmailTextWithAttachments 0 "a@x.com" "Hi" "body" [att0] =
          pre ++ "\r\n\r\n" ++ wrapBase64 att0.base64Data ++ "\r\n" ++ post) ∧
    (wrapBase64 att0.base64Data).data = joinLinesCRLF (chunks76 att0.base64Data.data) ∧
    (∀ line ∈ chunks76 att0.base64Data.data, line.length ≤ 76 ∧ line.all isB64Char = true) ∧
    buildRawEmailWithAttachments 0 "a@x.com" "Hi" "body" [att0] =
      base64UrlOfString (buildEmailTextWithAttachments 0 "a@x.com" "Hi" "body" [att0]) :=
  attachment_base64_lines_le_76 0 "a@x.com" "Hi" "body" [att0] (by simp) att0
    (by simp) (by decide)

/-- Claim C4: header sanitization of filenames: sanitizeHeaderValue replaces
every carriage return, line feed and double quote by an underscore, its
output never contains any of those characters, and the built message embeds
exactly the sanitized filename in the name and filename header parameters of
every attachment part, so a filename containing those characters never
reaches those headers unescaped. -/
theorem filename_sanitized_in_headers (now : Nat) (toAddr subject body : String)
    (atts : List AttachmentPayload) (a : AttachmentPayload) (ha : a ∈ atts) :
    (∀ f : String, (sanitizeHeaderValue f).data =
        f.data.map (fun c => if c = '\r' || c = '\n' || c = '"' then '_' else c)) ∧
    (∀ f : String, ∀ c ∈ (sanitizeHeaderValue f).data, c ≠ '\r' ∧ c ≠ '\n' ∧ c ≠ '"') ∧
    (∃ pre post : String,
        buildEmailTextWithAttachments now toAddr subject body atts =
          pre ++ ("Content-Type: " ++ a.mimeType ++ "; name=\"" ++
            sanitizeHeaderValue a.filename ++ "\"" ++ "\r\n" ++
            "Content-Disposition: attachment; filename=\"" ++
            sanitizeHeaderValue a.filename ++ "\"" ++ "\r\n") ++ post) := by
  refine ⟨fun _ => rfl, ?_, ?_⟩
  · intro f c hc
    rcases List.mem_map.mp hc with ⟨x, hx, he⟩
    by_cases hcond : x = '\r' || x = '\n' || x = '"'
    · rw [if_pos hcond] at he
      subst he
      refine ⟨by decide, by decide, by decide⟩
    · rw [if_neg hcond] at he
      subst he
      simp only [Bool.or_eq_true, decide_eq_true_eq, not_or] at hcond
      exact ⟨hcond.1.1, hcond.1.2, hcond.2⟩
  · have hmem : attachmentPartText (boundaryOf now) a ∈
        (bodyPartText (boundaryOf now) body
          :: (atts.map (attachmentPartText (boundaryOf now))
          ++ ["--" ++ boundaryOf now ++ "--"])) :=
      List.mem_cons_of_mem _ (List.mem_append_left _ (List.mem_map_of_mem _ ha))
    obtain ⟨p, q, hpq⟩ := sjoin_split _ _ hmem
    refine ⟨joinCRLF ["To: " ++ toAddr, "Subject: " ++ subject, "MIME-Version: 1.0",
        "Content-Type: multipart/mixed; boundary=\"" ++ boundaryOf now ++ "\""] ++
        "\r\n\r\n" ++ p ++ ("--" ++ boundaryOf now ++ "\r\n"),
      "Content-Transfer-Encoding: base64" ++ "\r\n\r\n" ++
        wrapBase64 a.base64Data ++ "\r\n" ++ q, ?_⟩
    calc buildEmailTextWithAttachments now toAddr subject body atts
        = joinCRLF ["To: " ++ toAddr, "Subject: " ++ subject, "MIME-Version: 1.0",
            "Content-Type: multipart/mixed; boundary=\"" ++ boundaryOf now ++ "\""] ++
          "\r\n\r\n" ++
          sjoin (bodyPartText (boundaryOf now) body
            :: (atts.map (attachmentPartText (boundaryOf now))
            ++ ["--" ++ boundaryOf now ++ "--"])) := rfl
      _ = _ := by
          rw [hpq]
          simp only [attachmentPartText, attachmentPartHead, String.append_assoc]

/-- Witness for claim C4 at a concrete attachment whose filename contains a
double quote and a CRLF. -/
theorem filename_sanitized_in_headers_witness :
    (∀ f : String, (sanitizeHeaderValue f).data =
        f.data.map (fun c => if c = '\r' || c = '\n' || c = '"' then '_' else c)) ∧
    (∀ f : String, ∀ c ∈ (sanitizeHeaderValue f).data, c ≠ '\r' ∧ c ≠ '\n' ∧ c ≠ '"') ∧
    (∃ pre post : String,
        buildEmailTextWithAttachments 7 "a@x.com" "Hi" "body" [att1] =
          pre ++ ("Content-Type: " ++ att1.mimeType ++ "; name=\"" ++
            sanitizeHeaderValue att1.filename ++ "\"" ++ "\r\n" ++
            "Content-Disposition: attachment; filename=\"" ++
            sanitizeHeaderValue att1.filename ++ "\"" ++ "\r\n") ++ post) :=
  filename_sanitized_in_headers 7 "a@x.com" "Hi" "body" [att1] att1 (by simp)

end Gmail
